import Mathlib

/-
Verification development for the LRremote infrared remote decoding library
(src/LRremote.h, src/LRremote.cpp).

The embedding models the C++ sources shallowly:
- the raw duration buffer (volatile unsigned int rawbuf[RAWBUF] plus the
  rawlen counter) is a function from index to tick count together with a
  count of valid entries; reads beyond the count return whatever the
  function yields, mirroring the C code, which happily reads stale array
  entries past rawlen;
- machine integers are Nat (or Int for decode_type, which holds the value
  UNKNOWN = -1); where C arithmetic wraps, an explicit modulus appears
  (the 32-bit FNV accumulator, the 16-bit tick counter, the truncations in
  decodePanasonic);
- each protocol matcher of LRremote.cpp is a pure function of the raw
  buffer producing a verdict, and a wrapper applies that verdict to the
  decoded-code instance variables (decode_type, value, bits,
  panasonicAddress) exactly as the member function mutates them; the only
  matchers that write an instance variable on a failing run are decodeSony,
  decodeSanyo and decodeMitsubishi, which zero the bits field on their
  too-few-bits exit, and the verdict type for those three has a dedicated
  failure constructor for that path;
- the two while-loops whose index advances by a data-dependent stride
  (decodeSony/decodeSanyo style loops and the RC5/RC6 level-cursor loops)
  are written with an explicit fuel argument; the fuel passed by each
  caller strictly exceeds the maximal possible number of iterations of the
  corresponding C loop (the loops below consume at least one buffer entry
  every two iterations and stop at the entry count), so the exhaustion
  branch is unreachable and only makes the recursion structural.

The header LRremoteInt.h is included by LRremote.cpp but is not part of
src/. Every definition taken from it is marked with a doc comment starting
with the words Modelled from the spec, and carries the timing value the
spec fixes (tick quantum, tolerance, Protocol-A timings) or, where the
spec only says the constants must match the published protocol timing
tables, the published values of those tables.
-/

namespace LRremote

/-- Protocol tag NEC, value from LRremote.h. -/
def NEC : Int := 1

/-- Protocol tag SONY, value from LRremote.h. -/
def SONY : Int := 2

/-- Protocol tag RC5, value from LRremote.h. -/
def RC5 : Int := 3

/-- Protocol tag RC6, value from LRremote.h. -/
def RC6 : Int := 4

/-- Protocol tag PANASONIC, value from LRremote.h. -/
def PANASONIC : Int := 7

/-- Protocol tag JVC, value from LRremote.h. -/
def JVC : Int := 8

/-- Protocol tag SANYO, value from LRremote.h. -/
def SANYO : Int := 9

/-- Protocol tag MITSUBISHI, value from LRremote.h. -/
def MITSUBISHI : Int := 10

/-- Protocol tag SAMSUNG, value from LRremote.h. -/
def SAMSUNG : Int := 11

/-- Protocol tag LG, value from LRremote.h. -/
def LG : Int := 12

/-- Protocol tag UNKNOWN, value from LRremote.h. -/
def UNKNOWN : Int := -1

/-- Capacity of the raw duration buffer, from LRremote.h. -/
def RAWBUF : Nat := 100

/-- Sentinel decode value for a repeat code, 0xffffffff, from LRremote.h. -/
def REPEAT : Nat := 4294967295

/-- Number of repeat codes ignored before acting, from LRremote.h. -/
def REPEAT_PAUSE : Nat := 3

/-- Sensor lag correction in microseconds, from LRremote.h. -/
def MARK_EXCESS : Nat := 100

/-- Modelled from the spec: the tick quantum is 50 microseconds
(LRremoteInt.h is absent from src). -/
def USECPERTICK : Nat := 50

/-- Modelled from the spec: minimum idle gap, in ticks, that marks a frame
boundary; 5000 microseconds of gap at 50 microseconds per tick
(LRremoteInt.h is absent from src). -/
def GAP_TICKS : Nat := 100

/-- Modelled from the spec: lower edge of the 20 percent proportional
tolerance band, in ticks: the integer part of 0.8 * us / USECPERTICK,
which for naturals is 4 * us / 250 (LRremoteInt.h is absent from src). -/
def TICKS_LOW (us : Nat) : Nat := 4 * us / 250

/-- Modelled from the spec: upper edge of the tolerance band, in ticks:
the integer part of 1.2 * us / USECPERTICK plus one, which for naturals is
6 * us / 250 + 1 (LRremoteInt.h is absent from src). -/
def TICKS_HIGH (us : Nat) : Nat := 6 * us / 250 + 1

/-- The MATCH primitive of LRremote.cpp: a measured tick count matches a
desired duration when it lies inside the tolerance band. -/
def MATCH (measured desired : Nat) : Bool :=
  decide (TICKS_LOW desired ≤ measured) && decide (measured ≤ TICKS_HIGH desired)

/-- The MATCH_MARK primitive of LRremote.cpp: active pulses measure about
MARK_EXCESS microseconds long, so the correction is added to the nominal
duration before the band test. -/
def MATCH_MARK (measured_ticks desired_us : Nat) : Bool :=
  MATCH measured_ticks (desired_us + MARK_EXCESS)

/-- The MATCH_SPACE primitive of LRremote.cpp: idle pulses measure short,
so the correction is subtracted. Every desired duration passed to it in
the sources exceeds MARK_EXCESS, so natural subtraction is exact. -/
def MATCH_SPACE (measured_ticks desired_us : Nat) : Bool :=
  MATCH measured_ticks (desired_us - MARK_EXCESS)

/-- Modelled from the spec: Protocol-A (NEC) header mark of 9000
microseconds (spec section 8; LRremoteInt.h is absent from src). -/
def NEC_HDR_MARK : Nat := 9000

/-- Modelled from the spec: NEC header space of 4500 microseconds. -/
def NEC_HDR_SPACE : Nat := 4500

/-- Modelled from the spec: NEC bit mark of 560 microseconds. -/
def NEC_BIT_MARK : Nat := 560

/-- Modelled from the spec: NEC one space of 1690 microseconds. -/
def NEC_ONE_SPACE : Nat := 1690

/-- Modelled from the spec: NEC zero space of 560 microseconds. -/
def NEC_ZERO_SPACE : Nat := 560

/-- Modelled from the spec: NEC repeat space, 2250 microseconds per the
published NEC timing table. -/
def NEC_RPT_SPACE : Nat := 2250

/-- Modelled from the spec: NEC payload is 32 bits. -/
def NEC_BITS : Nat := 32

/-- Modelled from the spec: published Sony SIRC header mark. -/
def SONY_HDR_MARK : Nat := 2400

/-- Modelled from the spec: published Sony SIRC header space. -/
def SONY_HDR_SPACE : Nat := 600

/-- Modelled from the spec: published Sony SIRC one mark. -/
def SONY_ONE_MARK : Nat := 1200

/-- Modelled from the spec: published Sony SIRC zero mark. -/
def SONY_ZERO_MARK : Nat := 600

/-- Modelled from the spec: Protocol-B has a minimum of 12 bits. -/
def SONY_BITS : Nat := 12

/-- Modelled from the spec: short leading gap threshold under which a
Sony frame is taken as a repeat. -/
def SONY_DOUBLE_SPACE_USECS : Nat := 500

/-- Modelled from the spec: published Sanyo header mark. -/
def SANYO_HDR_MARK : Nat := 3500

/-- Modelled from the spec: published Sanyo header space. -/
def SANYO_HDR_SPACE : Nat := 950

/-- Modelled from the spec: published Sanyo one mark. -/
def SANYO_ONE_MARK : Nat := 2400

/-- Modelled from the spec: published Sanyo zero mark. -/
def SANYO_ZERO_MARK : Nat := 700

/-- Modelled from the spec: Protocol-C has a minimum of 12 bits. -/
def SANYO_BITS : Nat := 12

/-- Modelled from the spec: short leading gap threshold for Sanyo. -/
def SANYO_DOUBLE_SPACE_USECS : Nat := 800

/-- Modelled from the spec: published Mitsubishi header idle pulse. -/
def MITSUBISHI_HDR_SPACE : Nat := 350

/-- Modelled from the spec: published Mitsubishi one mark. -/
def MITSUBISHI_ONE_MARK : Nat := 1950

/-- Modelled from the spec: published Mitsubishi zero mark. -/
def MITSUBISHI_ZERO_MARK : Nat := 750

/-- Modelled from the spec: Protocol-D fixed minimum bit count. -/
def MITSUBISHI_BITS : Nat := 16

/-- Modelled from the spec: RC5 half-bit time quantum in microseconds. -/
def RC5_T1 : Nat := 889

/-- Modelled from the spec: minimum RC5 sample count. -/
def MIN_RC5_SAMPLES : Nat := 11

/-- Modelled from the spec: RC6 header mark. -/
def RC6_HDR_MARK : Nat := 2666

/-- Modelled from the spec: RC6 header space. -/
def RC6_HDR_SPACE : Nat := 889

/-- Modelled from the spec: RC6 time quantum in microseconds. -/
def RC6_T1 : Nat := 444

/-- Modelled from the spec: minimum RC6 sample count. -/
def MIN_RC6_SAMPLES : Nat := 1

/-- Modelled from the spec: published Panasonic header mark. -/
def PANASONIC_HDR_MARK : Nat := 3502

/-- Modelled from the spec: published Panasonic header space. -/
def PANASONIC_HDR_SPACE : Nat := 1750

/-- Modelled from the spec: published Panasonic bit mark. -/
def PANASONIC_BIT_MARK : Nat := 502

/-- Modelled from the spec: published Panasonic one space. -/
def PANASONIC_ONE_SPACE : Nat := 1244

/-- Modelled from the spec: published Panasonic zero space. -/
def PANASONIC_ZERO_SPACE : Nat := 400

/-- Modelled from the spec: Protocol-G carries a 64-bit payload split into
address (high 32 bits) and data (low 32 bits). -/
def PANASONIC_BITS : Nat := 64

/-- Modelled from the spec: published LG header mark. -/
def LG_HDR_MARK : Nat := 8000

/-- Modelled from the spec: published LG header space. -/
def LG_HDR_SPACE : Nat := 4000

/-- Modelled from the spec: published LG bit mark. -/
def LG_BIT_MARK : Nat := 600

/-- Modelled from the spec: published LG one space. -/
def LG_ONE_SPACE : Nat := 1600

/-- Modelled from the spec: published LG zero space. -/
def LG_ZERO_SPACE : Nat := 550

/-- Modelled from the spec: LG payload bit count. -/
def LG_BITS : Nat := 28

/-- Modelled from the spec: published JVC header mark. -/
def JVC_HDR_MARK : Nat := 8000

/-- Modelled from the spec: published JVC header space. -/
def JVC_HDR_SPACE : Nat := 4000

/-- Modelled from the spec: published JVC bit mark. -/
def JVC_BIT_MARK : Nat := 600

/-- Modelled from the spec: published JVC one space. -/
def JVC_ONE_SPACE : Nat := 1600

/-- Modelled from the spec: published JVC zero space. -/
def JVC_ZERO_SPACE : Nat := 550

/-- Modelled from the spec: JVC payload bit count. -/
def JVC_BITS : Nat := 16

/-- Modelled from the spec: published Samsung header mark. -/
def SAMSUNG_HDR_MARK : Nat := 5000

/-- Modelled from the spec: published Samsung header space. -/
def SAMSUNG_HDR_SPACE : Nat := 5000

/-- Modelled from the spec: published Samsung bit mark. -/
def SAMSUNG_BIT_MARK : Nat := 560

/-- Modelled from the spec: published Samsung one space. -/
def SAMSUNG_ONE_SPACE : Nat := 1600

/-- Modelled from the spec: published Samsung zero space. -/
def SAMSUNG_ZERO_SPACE : Nat := 560

/-- Modelled from the spec: published Samsung repeat space. -/
def SAMSUNG_RPT_SPACE : Nat := 2250

/-- Modelled from the spec: Samsung payload bit count. -/
def SAMSUNG_BITS : Nat := 32

/-- FNV prime from LRremote.cpp. -/
def FNV_PRIME_32 : Nat := 16777619

/-- FNV basis from LRremote.cpp. -/
def FNV_BASIS_32 : Nat := 2166136261

/-- The raw duration buffer together with its count of valid entries
(rawbuf and rawlen in LRremote.cpp). Reads beyond len mirror the C code
reading stale array entries. -/
structure RawBuf where
  buf : Nat → Nat
  len : Nat

/-- The decoded-code instance variables of the LRremote class that the
protocol matchers write: decode_type, value, bits, panasonicAddress. -/
structure DecSt where
  decode_type : Int
  value : Nat
  bits : Nat
  panasonicAddress : Nat
deriving DecidableEq

/-- A successful decode result: protocol tag, value, bit count
and, for Panasonic only, the address word. -/
structure DecRes where
  ty : Int
  v : Nat
  b : Nat
  addr : Option Nat
deriving DecidableEq

/-- Apply the result of a matcher that never writes on failure: on some,
store tag, value and bit count (and address when given) and return true;
on none leave every instance variable alone and return false. -/
def applyD (d : DecSt) : Option DecRes → Bool × DecSt
  | some r => (true, ⟨r.ty, r.v, r.b, r.addr.getD d.panasonicAddress⟩)
  | none => (false, d)

/-- Verdict of the three matchers (Sony, Sanyo, Mitsubishi) whose
too-few-bits exit path assigns bits = 0 before returning false: ok is
success, failK is a failure that wrote nothing, failZ is the failure path
that zeroed bits. -/
inductive MRes3 where
  | ok (r : DecRes)
  | failK
  | failZ
deriving DecidableEq

/-- Apply an MRes3 verdict to the instance variables. -/
def applyM3 (d : DecSt) : MRes3 → Bool × DecSt
  | .ok r => (true, ⟨r.ty, r.v, r.b, r.addr.getD d.panasonicAddress⟩)
  | .failK => (false, d)
  | .failZ => (false, { d with bits := 0 })

/-- The space-duration-coded bit loop shared by decodeNEC, decodePanasonic,
decodeLG, decodeJVC and decodeSAMSUNG: a fixed count of bits, each a bit
mark followed by a one space or a zero space, accumulated by shifting
left and or-ing. Returns none where the C loop returns false. -/
def spaceLoop (f : Nat → Nat) (bitMark oneUs zeroUs : Nat) : Nat → Nat → Nat → Option Nat
  | 0, _, data => some data
  | n + 1, off, data =>
    if MATCH_MARK (f off) bitMark then
      if MATCH_SPACE (f (off + 1)) oneUs then
        spaceLoop f bitMark oneUs zeroUs n (off + 2) (2 * data + 1)
      else if MATCH_SPACE (f (off + 1)) zeroUs then
        spaceLoop f bitMark oneUs zeroUs n (off + 2) (2 * data)
      else none
    else none

/-- The mark-duration-coded while loop of decodeSony and decodeSanyo:
while offset + 1 < rawlen, a non-matching header space breaks the loop
(offset kept), otherwise the following mark encodes the bit or the
function fails. Returns the final offset and the accumulated data; none
is the hard failure. The first argument after zero is fuel; callers pass
len + 1, which exceeds the iteration count (each iteration advances the
offset by two and the loop stops once offset + 1 reaches len). -/
def markLoop (f : Nat → Nat) (len spc oneUs zeroUs : Nat) : Nat → Nat → Nat → Option (Nat × Nat)
  | 0, off, data => some (off, data)
  | fuel + 1, off, data =>
    if off + 1 < len then
      if MATCH_SPACE (f off) spc then
        if MATCH_MARK (f (off + 1)) oneUs then
          markLoop f len spc oneUs zeroUs fuel (off + 2) (2 * data + 1)
        else if MATCH_MARK (f (off + 1)) zeroUs then
          markLoop f len spc oneUs zeroUs fuel (off + 2) (2 * data)
        else none
      else some (off, data)
    else some (off, data)

/-- The decodeMitsubishi while loop: the mark comes first and encodes the
bit, then a non-matching header space breaks the loop with the offset
already advanced past the mark. Fuel as in markLoop. -/
def mitsuLoop (f : Nat → Nat) (len : Nat) : Nat → Nat → Nat → Option (Nat × Nat)
  | 0, off, data => some (off, data)
  | fuel + 1, off, data =>
    if off + 1 < len then
      if MATCH_MARK (f off) MITSUBISHI_ONE_MARK then
        if MATCH_SPACE (f (off + 1)) MITSUBISHI_HDR_SPACE then
          mitsuLoop f len fuel (off + 2) (2 * data + 1)
        else some (off + 1, 2 * data + 1)
      else if MATCH_MARK (f off) MITSUBISHI_ZERO_MARK then
        if MATCH_SPACE (f (off + 1)) MITSUBISHI_HDR_SPACE then
          mitsuLoop f len fuel (off + 2) (2 * data)
        else some (off + 1, 2 * data)
      else none
    else some (off, data)

/-- Embedding of LRremote::decodeNEC as a pure verdict on the buffer:
header mark, then either the 4-entry repeat frame, or the length check,
header space and 32 space-coded bits. -/
def decodeNECM (rb : RawBuf) : Option DecRes :=
  if MATCH_MARK (rb.buf 1) NEC_HDR_MARK then
    if rb.len = 4 ∧ MATCH_SPACE (rb.buf 2) NEC_RPT_SPACE ∧ MATCH_MARK (rb.buf 3) NEC_BIT_MARK then
      some ⟨NEC, REPEAT, 0, none⟩
    else if rb.len < 2 * NEC_BITS + 4 then none
    else if MATCH_SPACE (rb.buf 2) NEC_HDR_SPACE then
      match spaceLoop rb.buf NEC_BIT_MARK NEC_ONE_SPACE NEC_ZERO_SPACE NEC_BITS 3 0 with
      | some data => some ⟨NEC, data, NEC_BITS, none⟩
      | none => none
    else none
  else none

/-- LRremote::decodeNEC acting on the instance variables. -/
def decodeNEC (rb : RawBuf) (d : DecSt) : Bool × DecSt := applyD d (decodeNECM rb)

/-- Embedding of LRremote::decodeSony as a verdict: length guard, the
short-leading-gap repeat branch (which tags the result SANYO, as the
source does), header mark, the mark-coded bit loop, and the minimum-bits
check whose failure zeroes bits. -/
def decodeSonyM (rb : RawBuf) : MRes3 :=
  if rb.len < 2 * SONY_BITS + 2 then .failK
  else if rb.buf 0 < SONY_DOUBLE_SPACE_USECS then .ok ⟨SANYO, REPEAT, 0, none⟩
  else if MATCH_MARK (rb.buf 1) SONY_HDR_MARK then
    match markLoop rb.buf rb.len SONY_HDR_SPACE SONY_ONE_MARK SONY_ZERO_MARK (rb.len + 1) 2 0 with
    | some (off, data) =>
      if (off - 1) / 2 < 12 then .failZ else .ok ⟨SONY, data, (off - 1) / 2, none⟩
    | none => .failK
  else .failK

/-- LRremote::decodeSony acting on the instance variables. -/
def decodeSony (rb : RawBuf) (d : DecSt) : Bool × DecSt := applyM3 d (decodeSonyM rb)

/-- Embedding of LRremote::decodeSanyo: like Sony with its own timings, a
doubled header mark, and the same zero-bits failure exit. -/
def decodeSanyoM (rb : RawBuf) : MRes3 :=
  if rb.len < 2 * SANYO_BITS + 2 then .failK
  else if rb.buf 0 < SANYO_DOUBLE_SPACE_USECS then .ok ⟨SANYO, REPEAT, 0, none⟩
  else if MATCH_MARK (rb.buf 1) SANYO_HDR_MARK then
    if MATCH_MARK (rb.buf 2) SANYO_HDR_MARK then
      match markLoop rb.buf rb.len SANYO_HDR_SPACE SANYO_ONE_MARK SANYO_ZERO_MARK (rb.len + 1) 3 0 with
      | some (off, data) =>
        if (off - 1) / 2 < 12 then .failZ else .ok ⟨SANYO, data, (off - 1) / 2, none⟩
      | none => .failK
    else .failK
  else .failK

/-- LRremote::decodeSanyo acting on the instance variables. -/
def decodeSanyo (rb : RawBuf) (d : DecSt) : Bool × DecSt := applyM3 d (decodeSanyoM rb)

/-- Embedding of LRremote::decodeMitsubishi: length guard, header idle
pulse checked with MATCH_MARK as in the source, the mark-first bit loop,
and the zero-bits failure exit. -/
def decodeMitsubishiM (rb : RawBuf) : MRes3 :=
  if rb.len < 2 * MITSUBISHI_BITS + 2 then .failK
  else if MATCH_MARK (rb.buf 1) MITSUBISHI_HDR_SPACE then
    match mitsuLoop rb.buf rb.len (rb.len + 1) 2 0 with
    | some (off, data) =>
      if (off - 1) / 2 < MITSUBISHI_BITS then .failZ
      else .ok ⟨MITSUBISHI, data, (off - 1) / 2, none⟩
    | none => .failK
  else .failK

/-- LRremote::decodeMitsubishi acting on the instance variables. -/
def decodeMitsubishi (rb : RawBuf) (d : DecSt) : Bool × DecSt := applyM3 d (decodeMitsubishiM rb)

/-- Levels returned by getRClevel: the C function returns MARK, SPACE or
the error value -1. -/
inductive RCLevel where
  | mark
  | space
  | err
deriving DecidableEq

/-- Embedding of LRremote::getRClevel: past the end of the buffer the
level is space; otherwise the entry width must match one, two or three
time quanta (with the mark or space correction chosen by the parity of the
offset), the used counter advances, and the offset advances only once the
whole entry is consumed. Returns the level and the updated offset and
used counter; on error the cursor does not move. -/
def getRClevel (f : Nat → Nat) (len off used t1 : Nat) : RCLevel × Nat × Nat :=
  if len ≤ off then (.space, off, used)
  else
    let width := f off
    let isMark : Bool := decide (off % 2 = 1)
    let corr : Nat → Nat := fun k => if isMark then k * t1 + MARK_EXCESS else k * t1 - MARK_EXCESS
    let availOpt : Option Nat :=
      if MATCH width (corr 1) then some 1
      else if MATCH width (corr 2) then some 2
      else if MATCH width (corr 3) then some 3
      else none
    match availOpt with
    | none => (.err, off, used)
    | some avail =>
      if avail ≤ used + 1 then ((if isMark then .mark else .space), off + 1, 0)
      else ((if isMark then .mark else .space), off, used + 1)

/-- The RC5 bit loop: while the offset is inside the buffer, read two
half-bit levels; space then mark is a one, mark then space is a zero,
anything else fails. Fuel as documented at the top of the file: each
getRClevel call advances offset or used, used is bounded by three, so the
iteration count is under twice the entry count. -/
def rc5Loop (f : Nat → Nat) (len : Nat) : Nat → Nat → Nat → Nat → Nat → Option (Nat × Nat)
  | 0, _, _, data, n => some (n, data)
  | fuel + 1, off, used, data, n =>
    if off < len then
      let r1 := getRClevel f len off used RC5_T1
      let r2 := getRClevel f len r1.2.1 r1.2.2 RC5_T1
      if r1.1 = RCLevel.space ∧ r2.1 = RCLevel.mark then
        rc5Loop f len fuel r2.2.1 r2.2.2 (2 * data + 1) (n + 1)
      else if r1.1 = RCLevel.mark ∧ r2.1 = RCLevel.space then
        rc5Loop f len fuel r2.2.1 r2.2.2 (2 * data) (n + 1)
      else none
    else some (n, data)

/-- Embedding of LRremote::decodeRC5: length guard, three start half-bits
(mark, space, mark), then the RC5 bit loop. -/
def decodeRC5M (rb : RawBuf) : Option DecRes :=
  if rb.len < MIN_RC5_SAMPLES + 2 then none
  else
    let r1 := getRClevel rb.buf rb.len 1 0 RC5_T1
    if r1.1 = RCLevel.mark then
      let r2 := getRClevel rb.buf rb.len r1.2.1 r1.2.2 RC5_T1
      if r2.1 = RCLevel.space then
        let r3 := getRClevel rb.buf rb.len r2.2.1 r2.2.2 RC5_T1
        if r3.1 = RCLevel.mark then
          match rc5Loop rb.buf rb.len (2 * rb.len + 4) r3.2.1 r3.2.2 0 0 with
          | some (n, data) => some ⟨RC5, data, n, none⟩
          | none => none
        else none
      else none
    else none

/-- LRremote::decodeRC5 acting on the instance variables. -/
def decodeRC5 (rb : RawBuf) (d : DecSt) : Bool × DecSt := applyD d (decodeRC5M rb)

/-- The RC6 bit loop: like RC5 with the level order reversed, and the bit
at index 3 (the toggle bit) is double wide, checked by reading each half
twice and requiring the two reads to agree. -/
def rc6Loop (f : Nat → Nat) (len : Nat) : Nat → Nat → Nat → Nat → Nat → Option (Nat × Nat)
  | 0, _, _, data, n => some (n, data)
  | fuel + 1, off, used, data, n =>
    if off < len then
      let rA := getRClevel f len off used RC6_T1
      let sA : Option (Nat × Nat) :=
        if n = 3 then
          let rA2 := getRClevel f len rA.2.1 rA.2.2 RC6_T1
          if rA2.1 = rA.1 then some (rA2.2.1, rA2.2.2) else none
        else some (rA.2.1, rA.2.2)
      match sA with
      | none => none
      | some (oA, uA) =>
        let rB := getRClevel f len oA uA RC6_T1
        let sB : Option (Nat × Nat) :=
          if n = 3 then
            let rB2 := getRClevel f len rB.2.1 rB.2.2 RC6_T1
            if rB2.1 = rB.1 then some (rB2.2.1, rB2.2.2) else none
          else some (rB.2.1, rB.2.2)
        match sB with
        | none => none
        | some (oB, uB) =>
          if rA.1 = RCLevel.mark ∧ rB.1 = RCLevel.space then
            rc6Loop f len fuel oB uB (2 * data + 1) (n + 1)
          else if rA.1 = RCLevel.space ∧ rB.1 = RCLevel.mark then
            rc6Loop f len fuel oB uB (2 * data) (n + 1)
          else none
    else some (n, data)

/-- Embedding of LRremote::decodeRC6: length guard, header mark and space,
one start bit (mark then space), then the RC6 bit loop. -/
def decodeRC6M (rb : RawBuf) : Option DecRes :=
  if rb.len < MIN_RC6_SAMPLES then none
  else if MATCH_MARK (rb.buf 1) RC6_HDR_MARK then
    if MATCH_SPACE (rb.buf 2) RC6_HDR_SPACE then
      let r1 := getRClevel rb.buf rb.len 3 0 RC6_T1
      if r1.1 = RCLevel.mark then
        let r2 := getRClevel rb.buf rb.len r1.2.1 r1.2.2 RC6_T1
        if r2.1 = RCLevel.space then
          match rc6Loop rb.buf rb.len (2 * rb.len + 8) r2.2.1 r2.2.2 0 0 with
          | some (n, data) => some ⟨RC6, data, n, none⟩
          | none => none
        else none
      else none
    else none
  else none

/-- LRremote::decodeRC6 acting on the instance variables. -/
def decodeRC6 (rb : RawBuf) (d : DecSt) : Bool × DecSt := applyD d (decodeRC6M rb)

/-- Embedding of LRremote::decodePanasonic: header mark, header space
(checked with MATCH_MARK as in the source), then the fixed bit payload.
The source performs no entry-count check at all. The value instance
variable receives the low 32 bits of the accumulator (the cast to
unsigned long) and panasonicAddress the next 16 bits (the cast of the
high word to the 16-bit unsigned int of the AVR target). -/
def decodePanasonicM (rb : RawBuf) : Option DecRes :=
  if MATCH_MARK (rb.buf 1) PANASONIC_HDR_MARK then
    if MATCH_MARK (rb.buf 2) PANASONIC_HDR_SPACE then
      match spaceLoop rb.buf PANASONIC_BIT_MARK PANASONIC_ONE_SPACE PANASONIC_ZERO_SPACE PANASONIC_BITS 3 0 with
      | some data => some ⟨PANASONIC, data % 4294967296, PANASONIC_BITS, some (data / 4294967296 % 65536)⟩
      | none => none
    else none
  else none

/-- LRremote::decodePanasonic acting on the instance variables. -/
def decodePanasonic (rb : RawBuf) (d : DecSt) : Bool × DecSt := applyD d (decodePanasonicM rb)

/-- Embedding of LRremote::decodeLG: header mark, length check, header
space, the fixed bit payload, and the required trailing stop mark. -/
def decodeLGM (rb : RawBuf) : Option DecRes :=
  if MATCH_MARK (rb.buf 1) LG_HDR_MARK then
    if rb.len < 2 * LG_BITS + 1 then none
    else if MATCH_SPACE (rb.buf 2) LG_HDR_SPACE then
      match spaceLoop rb.buf LG_BIT_MARK LG_ONE_SPACE LG_ZERO_SPACE LG_BITS 3 0 with
      | some data =>
        if MATCH_MARK (rb.buf (3 + 2 * LG_BITS)) LG_BIT_MARK then
          some ⟨LG, data, LG_BITS, none⟩
        else none
      | none => none
    else none
  else none

/-- LRremote::decodeLG acting on the instance variables. -/
def decodeLG (rb : RawBuf) (d : DecSt) : Bool × DecSt := applyD d (decodeLGM rb)

/-- Embedding of LRremote::decodeJVC: the repeat shape is a frame of 34
entries whose entries 1 and 33 are bit marks; otherwise header mark,
length check, header space, payload and trailing stop mark. -/
def decodeJVCM (rb : RawBuf) : Option DecRes :=
  if rb.len - 1 = 33 ∧ MATCH_MARK (rb.buf 1) JVC_BIT_MARK ∧ MATCH_MARK (rb.buf (rb.len - 1)) JVC_BIT_MARK then
    some ⟨JVC, REPEAT, 0, none⟩
  else if MATCH_MARK (rb.buf 1) JVC_HDR_MARK then
    if rb.len < 2 * JVC_BITS + 1 then none
    else if MATCH_SPACE (rb.buf 2) JVC_HDR_SPACE then
      match spaceLoop rb.buf JVC_BIT_MARK JVC_ONE_SPACE JVC_ZERO_SPACE JVC_BITS 3 0 with
      | some data =>
        if MATCH_MARK (rb.buf (3 + 2 * JVC_BITS)) JVC_BIT_MARK then
          some ⟨JVC, data, JVC_BITS, none⟩
        else none
      | none => none
    else none
  else none

/-- LRremote::decodeJVC acting on the instance variables. -/
def decodeJVC (rb : RawBuf) (d : DecSt) : Bool × DecSt := applyD d (decodeJVCM rb)

/-- Embedding of LRremote::decodeSAMSUNG: header mark, the 4-entry repeat
frame, length check, header space and the fixed payload. -/
def decodeSAMSUNGM (rb : RawBuf) : Option DecRes :=
  if MATCH_MARK (rb.buf 1) SAMSUNG_HDR_MARK then
    if rb.len = 4 ∧ MATCH_SPACE (rb.buf 2) SAMSUNG_RPT_SPACE ∧ MATCH_MARK (rb.buf 3) SAMSUNG_BIT_MARK then
      some ⟨SAMSUNG, REPEAT, 0, none⟩
    else if rb.len < 2 * SAMSUNG_BITS + 4 then none
    else if MATCH_SPACE (rb.buf 2) SAMSUNG_HDR_SPACE then
      match spaceLoop rb.buf SAMSUNG_BIT_MARK SAMSUNG_ONE_SPACE SAMSUNG_ZERO_SPACE SAMSUNG_BITS 3 0 with
      | some data => some ⟨SAMSUNG, data, SAMSUNG_BITS, none⟩
      | none => none
    else none
  else none

/-- LRremote::decodeSAMSUNG acting on the instance variables. -/
def decodeSAMSUNG (rb : RawBuf) (d : DecSt) : Bool × DecSt := applyD d (decodeSAMSUNGM rb)

/-- Embedding of LRremote::compare. The source compares the unsigned
newval against the double product oldval * .8; for every unsigned int
argument the double comparison agrees with the exact rational comparison
5 * newval < 4 * oldval (the nearest double to 0.8 exceeds 4 / 5 by a
relative 2 to the power -54, strictly less than half an ulp of any
product, so rounding never crosses an integer), which is how the test is
rendered here on naturals. -/
def compare (oldval newval : Nat) : Nat :=
  if 5 * newval < 4 * oldval then 0
  else if 5 * oldval < 4 * newval then 2
  else 1

/-- The hash accumulation loop of LRremote::decodeHash: for each of the
given number of positions starting at index i, multiply the running hash
by the FNV prime modulo 2 to the 32 (the long accumulator wraps) and
exclusive-or the comparison class of the entry two later against the
entry at the position. -/
def hashLoop (f : Nat → Nat) : Nat → Nat → Nat → Nat
  | 0, _, h => h
  | n + 1, i, h => hashLoop f n (i + 1) ((h * FNV_PRIME_32 % 4294967296) ^^^ compare (f i) (f (i + 2)))

/-- Embedding of LRremote::decodeHash: at least 6 samples are required;
the loop runs for index i from 1 while i + 2 < rawlen, so rawlen - 3
iterations. -/
def decodeHashM (rb : RawBuf) : Option DecRes :=
  if rb.len < 6 then none
  else some ⟨UNKNOWN, hashLoop rb.buf (rb.len - 3) 1 FNV_BASIS_32, 32, none⟩

/-- LRremote::decodeHash acting on the instance variables. -/
def decodeHash (rb : RawBuf) (d : DecSt) : Bool × DecSt := applyD d (decodeHashM rb)

/-- The matcher chain of LRremote::decode, in source order, threading the
instance variables through each attempt (a failing decodeSony, decodeSanyo
or decodeMitsubishi can leave bits = 0 behind for the rest of the chain,
exactly as the member functions do). -/
def runChain (rb : RawBuf) (d : DecSt) : Bool × DecSt :=
  let r := decodeNEC rb d
  if r.1 then r else
  let r := decodeSony rb r.2
  if r.1 then r else
  let r := decodeSanyo rb r.2
  if r.1 then r else
  let r := decodeMitsubishi rb r.2
  if r.1 then r else
  let r := decodeRC5 rb r.2
  if r.1 then r else
  let r := decodeRC6 rb r.2
  if r.1 then r else
  let r := decodePanasonic rb r.2
  if r.1 then r else
  let r := decodeLG rb r.2
  if r.1 then r else
  let r := decodeJVC rb r.2
  if r.1 then r else
  let r := decodeSAMSUNG rb r.2
  if r.1 then r else
  decodeHash rb r.2

/-- States of the receiver state machine (STATE_IDLE, STATE_MARK,
STATE_SPACE, STATE_STOP of LRremoteInt.h; the spec names them Idle,
TimingActivePulse, TimingIdlePulse, Ready). -/
inductive RState where
  | idle
  | mark
  | space
  | stop
deriving DecidableEq

/-- The full shared state of the library: the receiver state machine
state, the raw buffer and its count, and the decoded-code instance
variables. -/
structure LRState where
  rcvstate : RState
  rawbuf : Nat → Nat
  rawlen : Nat
  decode_type : Int
  value : Nat
  bits : Nat
  panasonicAddress : Nat

/-- The raw buffer view of a full state. -/
def rbOf (s : LRState) : RawBuf := ⟨s.rawbuf, s.rawlen⟩

/-- The decoded-code view of a full state. -/
def decOf (s : LRState) : DecSt := ⟨s.decode_type, s.value, s.bits, s.panasonicAddress⟩

/-- Write the decoded-code view back into a full state. -/
def withDec (s : LRState) (d : DecSt) : LRState :=
  { s with decode_type := d.decode_type, value := d.value, bits := d.bits,
           panasonicAddress := d.panasonicAddress }

/-- Embedding of LRremote::decode: return false when the state machine is
not stopped; otherwise run the matcher chain; on total failure the source
calls resume() itself, which zeroes rawlen and returns the state machine
to idle. -/
def decode (s : LRState) : Bool × LRState :=
  if s.rcvstate = RState.stop then
    let r := runChain (rbOf s) (decOf s)
    if r.1 then (true, withDec s r.2)
    else (false, { withDec s r.2 with rcvstate := RState.idle, rawlen := 0 })
  else (false, s)

/-- Pointwise array update, modelling an assignment rawbuf[i] = v. -/
def upd (f : Nat → Nat) (i v : Nat) : Nat → Nat := fun j => if j = i then v else f j

/-- The state owned by the timer interrupt service routine: the state
machine state, the 16-bit tick counter, the raw buffer and its count. -/
structure ISRState where
  rcvstate : RState
  timer : Nat
  rawbuf : Nat → Nat
  rawlen : Nat

/-- Embedding of the per-tick ISR of LRremote.cpp. The argument irMark
tells whether the sampled receiver level is the active MARK level. The
ISR first increments the 16-bit tick counter, then forces the state to
stop whenever the buffer count has reached RAWBUF, then dispatches on the
state: idle absorbs sub-gap noise, clamps the counter at the gap
threshold, and on a real gap end records entry 0 and starts timing a
mark; mark and space push the elapsed duration on each level change;
space also stops the machine once the idle time reaches the gap
threshold; stop only zeroes the counter. -/
def tick (irMark : Bool) (s : ISRState) : ISRState :=
  let t := (s.timer + 1) % 65536
  let st := if RAWBUF ≤ s.rawlen then RState.stop else s.rcvstate
  match st with
  | .idle =>
    if irMark then
      if t < GAP_TICKS then { s with rcvstate := RState.idle, timer := 0 }
      else { rcvstate := .mark, timer := 0, rawbuf := upd s.rawbuf 0 t, rawlen := 1 }
    else if GAP_TICKS < t then { s with rcvstate := RState.idle, timer := GAP_TICKS }
    else { s with rcvstate := RState.idle, timer := t }
  | .mark =>
    if irMark then { s with rcvstate := RState.mark, timer := t }
    else { rcvstate := .space, timer := 0, rawbuf := upd s.rawbuf s.rawlen t, rawlen := s.rawlen + 1 }
  | .space =>
    if irMark then
      { rcvstate := .mark, timer := 0, rawbuf := upd s.rawbuf s.rawlen t, rawlen := s.rawlen + 1 }
    else if GAP_TICKS ≤ t then { s with rcvstate := RState.stop, timer := t }
    else { s with rcvstate := RState.space, timer := t }
  | .stop => { s with rcvstate := RState.stop, timer := 0 }

/-- The initial sampler state: idle, zero counter, empty buffer. -/
def initISR : ISRState := ⟨.idle, 0, fun _ => 0, 0⟩

/-- States of the sampler reachable from the initial state by tick steps. -/
inductive Reachable : ISRState → Prop where
  | init : Reachable initISR
  | step (ir : Bool) {s : ISRState} : Reachable s → Reachable (tick ir s)

/-- The debounce state of the repeat controller: lastValue and the
consecutive-repeat counter (named repeat in the source). -/
structure BtnState where
  lastValue : Nat
  rpt : Nat
deriving DecidableEq

/-- Embedding of the body of LRremote::onButton for one poll in which
decode produced the value v. The action table is modelled by the list of
codes of interest; invoking fButton[k] is modelled by reporting the index
k, so the result is the new debounce state, the returned Bool, and the
index of the invoked action if any. List.findIdx is exactly the first
matching loop of the source, returning the list length when nothing
matches. -/
def onButtonStep (code : List Nat) (v : Nat) (s : BtnState) : BtnState × Bool × Option Nat :=
  let keyIx := code.findIdx (fun c => c == v)
  let s1 := if keyIx < code.length then ({ lastValue := v, rpt := 0 } : BtnState) else s
  if code.length ≤ keyIx ∧ v = REPEAT then
    let r := s1.rpt + 1
    if r < REPEAT_PAUSE then ({ s1 with rpt := r }, false, none)
    else
      let k2 := code.findIdx (fun c => c == s1.lastValue)
      if k2 < code.length then ({ s1 with rpt := r }, true, some k2)
      else ({ s1 with rpt := r }, false, none)
  else
    if keyIx < code.length then (s1, true, some keyIx)
    else (s1, false, none)

/-- Iterated repeat-sentinel polls of the controller. -/
def iterRepeat (code : List Nat) (s : BtnState) : Nat → BtnState
  | 0 => s
  | n + 1 => (onButtonStep code REPEAT (iterRepeat code s n)).1

/-- One FNV-1 step: multiply by the prime modulo 2 to the 32, then
exclusive-or the comparison class. -/
def stepFNV (h v : Nat) : Nat := (h * FNV_PRIME_32 % 4294967296) ^^^ v

/-- The FNV-1 fold over a list of comparison classes. -/
def hashFold (vs : List Nat) (h : Nat) : Nat := vs.foldl stepFNV h

/-- The list of stride-2 comparison classes that decodeHash folds: one
class for each index i from 1 while i + 2 < len. -/
def compareClasses (f : Nat → Nat) (len : Nat) : List Nat :=
  (List.range (len - 3)).map fun k => compare (f (1 + k)) (f (1 + k + 2))

/-- Most-significant-bit-first accumulation of a list of bits, the value
the shift-and-or loop of the space-coded decoders computes. -/
def msbValue (bs : List Bool) : Nat := bs.foldl (fun d b => 2 * d + (bif b then 1 else 0)) 0

/-- The canonical Protocol-A buffer for a bit pattern: entry 0 a gap of
GAP_TICKS, a 9100 microsecond measured header mark (182 ticks), a 4400
microsecond measured header space (88 ticks), then for each bit a 13-tick
bit mark followed by 32 ticks for a one or 9 ticks for a zero, and a
trailing 13-tick stop mark. All durations sit inside the tolerance bands
of the nominal Protocol-A timings. -/
def necCanon (bs : List Bool) : Nat → Nat := fun i =>
  if i = 0 then GAP_TICKS
  else if i = 1 then 182
  else if i = 2 then 88
  else if i < 3 + 2 * bs.length then
    (if (i - 3) % 2 = 0 then 13 else if bs.getD ((i - 3) / 2) false then 32 else 9)
  else 13

section Theorems

/-- C2: after a poll in which the decoded value matched a mapped entry
(resetting the repeat counter and remembering the value), the first two
consecutive polls that decode the unmapped repeat sentinel invoke no
action and report not handled, and the third consecutive repeat-sentinel
poll invokes the action mapped to the remembered value exactly once and
reports handled (REPEAT_PAUSE = 3). -/
theorem debounce_three_repeats (code : List Nat) (v : Nat) (s0 : BtnState)
    (hv : code.findIdx (fun c => c == v) < code.length)
    (hr : ¬ code.findIdx (fun c => c == REPEAT) < code.length) :
    onButtonStep code v s0 = (⟨v, 0⟩, true, some (code.findIdx (fun c => c == v))) ∧
    onButtonStep code REPEAT ⟨v, 0⟩ = (⟨v, 1⟩, false, none) ∧
    onButtonStep code REPEAT ⟨v, 1⟩ = (⟨v, 2⟩, false, none) ∧
    onButtonStep code REPEAT ⟨v, 2⟩ = (⟨v, 3⟩, true, some (code.findIdx (fun c => c == v))) := by
  have hnotle : ¬ code.length ≤ code.findIdx (fun c => c == v) := Nat.not_le.mpr hv
  have hle : code.length ≤ code.findIdx (fun c => c == REPEAT) := Nat.not_lt.mp hr
  refine ⟨?_, ?_, ?_, ?_⟩ <;>
    simp +decide [onButtonStep, hv, hr, hnotle, hle, REPEAT_PAUSE]

/-- Witness for C2 at the concrete table [5] and value 5. -/
theorem debounce_three_repeats_witness :
    onButtonStep [5] 5 ⟨0, 0⟩ = (⟨5, 0⟩, true, some 0) ∧
    onButtonStep [5] REPEAT ⟨5, 2⟩ = (⟨5, 3⟩, true, some 0) :=
  ⟨(debounce_three_repeats [5] 5 ⟨0, 0⟩ (by decide) (by decide)).1,
   (debounce_three_repeats [5] 5 ⟨0, 0⟩ (by decide) (by decide)).2.2.2⟩

/-- C10: once the consecutive-repeat counter has reached the debounce
threshold, every further consecutive poll that decodes the unmapped
repeat sentinel invokes the action of the remembered last accepted value
and reports handled, and the counter keeps growing (a repeat-triggered
firing never resets it); only a poll whose decoded value matches a mapped
entry resets the counter to zero. -/
theorem repeat_keeps_firing (code : List Nat) (s : BtnState)
    (hr : ¬ code.findIdx (fun c => c == REPEAT) < code.length)
    (hl : code.findIdx (fun c => c == s.lastValue) < code.length)
    (hth : REPEAT_PAUSE ≤ s.rpt + 1) :
    (∀ n, onButtonStep code REPEAT (iterRepeat code s n) =
        (⟨s.lastValue, s.rpt + n + 1⟩, true,
          some (code.findIdx (fun c => c == s.lastValue)))) ∧
    (∀ w, code.findIdx (fun c => c == w) < code.length →
        (onButtonStep code w s).1 = ⟨w, 0⟩) := by
  have hle : code.length ≤ code.findIdx (fun c => c == REPEAT) := Nat.not_lt.mp hr
  have hstep : ∀ k, REPEAT_PAUSE ≤ k + 1 →
      onButtonStep code REPEAT ⟨s.lastValue, k⟩ =
        (⟨s.lastValue, k + 1⟩, true, some (code.findIdx (fun c => c == s.lastValue))) := by
    intro k hk
    have hk3 : ¬ k + 1 < REPEAT_PAUSE := Nat.not_lt.mpr hk
    simp [onButtonStep, hr, hle, hk3, hl]
  have hiter : ∀ n, iterRepeat code s n = ⟨s.lastValue, s.rpt + n⟩ := by
    intro n
    induction n with
    | zero => rfl
    | succ m ih =>
      have hm : REPEAT_PAUSE ≤ s.rpt + m + 1 := le_trans hth (by omega)
      show (onButtonStep code REPEAT (iterRepeat code s m)).1 = _
      rw [ih, hstep (s.rpt + m) hm]
      rfl
  constructor
  · intro n
    rw [hiter n]
    have hn : REPEAT_PAUSE ≤ s.rpt + n + 1 := le_trans hth (by omega)
    exact hstep (s.rpt + n) hn
  · intro w hw
    have hnotle : ¬ code.length ≤ code.findIdx (fun c => c == w) := Nat.not_le.mpr hw
    simp [onButtonStep, hw, hnotle]

/-- Witness for C10 at the concrete table [7] with counter already at 2. -/
theorem repeat_keeps_firing_witness :
    onButtonStep [7] REPEAT (iterRepeat [7] ⟨7, 2⟩ 0) = (⟨7, 3⟩, true, some 0) :=
  (repeat_keeps_firing [7] ⟨7, 2⟩ (by decide) (by decide) (by decide)).1 0

/-- A matcher built on applyD writes nothing when it fails. -/
theorem applyD_false (d : DecSt) (o : Option DecRes) (h : (applyD d o).1 = false) :
    (applyD d o).2 = d := by
  cases o with
  | none => rfl
  | some r => simp [applyD] at h

/-- A matcher built on applyM3 either writes nothing or only zeroes bits
when it fails. -/
theorem applyM3_false (d : DecSt) (m : MRes3) (h : (applyM3 d m).1 = false) :
    (applyM3 d m).2 = d ∨ (applyM3 d m).2 = { d with bits := 0 } := by
  cases m with
  | ok r => simp [applyM3] at h
  | failK => exact Or.inl rfl
  | failZ => exact Or.inr rfl

/-- C5: a Ready buffer long enough for the Sony matcher whose entry 0 is
below the short-leading-gap threshold is recognized by decodeSony as a
repeat, with the sentinel value and zero bit count, but the protocol tag
the source stores in that branch is SANYO, not SONY. -/
theorem decodeSony_repeat_tags_sanyo (rb : RawBuf) (d : DecSt)
    (hlen : 2 * SONY_BITS + 2 ≤ rb.len)
    (h0 : rb.buf 0 < SONY_DOUBLE_SPACE_USECS) :
    decodeSony rb d = (true, ⟨SANYO, REPEAT, 0, d.panasonicAddress⟩) ∧ SANYO ≠ SONY := by
  have h1 : ¬ rb.len < 2 * SONY_BITS + 2 := Nat.not_lt.mpr hlen
  refine ⟨?_, by decide⟩
  simp [decodeSony, decodeSonyM, h1, h0, applyM3]

/-- Witness for C5 at a concrete 26-entry buffer of 10-tick entries. -/
theorem decodeSony_repeat_tags_sanyo_witness :
    decodeSony ⟨fun _ => 10, 26⟩ ⟨0, 0, 0, 0⟩ = (true, ⟨SANYO, REPEAT, 0, 0⟩) ∧
    SANYO ≠ SONY :=
  decodeSony_repeat_tags_sanyo ⟨fun _ => 10, 26⟩ ⟨0, 0, 0, 0⟩ (by decide) (by decide)

/-- C6 counterexample: a concrete Ready buffer on which decodeSony fails
(header mark accepted, first header space rejected, fewer than 12 bits)
yet changes the bits field of the decoded code from 32 to 0, refuting the
claim that every failing matcher leaves every decoded-code field
unchanged. -/
theorem failing_sony_writes_bits :
    (decodeSony ⟨fun i => if i = 1 then 50 else 500, 26⟩ ⟨0, 0, 32, 0⟩).1 = false ∧
    (decodeSony ⟨fun i => if i = 1 then 50 else 500, 26⟩ ⟨0, 0, 32, 0⟩).2 ≠ ⟨0, 0, 32, 0⟩ := by
  decide

/-- C6 amended: a failing matcher leaves decode_type, value and
panasonicAddress unchanged (and, matchers being pure readers of the
buffer, the buffer itself is untouched by construction); every matcher
except decodeSony, decodeSanyo and decodeMitsubishi also leaves the bits
field unchanged on failure, while those three either leave the decoded
code unchanged or only zero the bits field, through their too-few-bits
exit. -/
theorem matcher_failure_frame (rb : RawBuf) (d : DecSt) :
    ((decodeNEC rb d).1 = false → (decodeNEC rb d).2 = d) ∧
    ((decodeRC5 rb d).1 = false → (decodeRC5 rb d).2 = d) ∧
    ((decodeRC6 rb d).1 = false → (decodeRC6 rb d).2 = d) ∧
    ((decodePanasonic rb d).1 = false → (decodePanasonic rb d).2 = d) ∧
    ((decodeLG rb d).1 = false → (decodeLG rb d).2 = d) ∧
    ((decodeJVC rb d).1 = false → (decodeJVC rb d).2 = d) ∧
    ((decodeSAMSUNG rb d).1 = false → (decodeSAMSUNG rb d).2 = d) ∧
    ((decodeHash rb d).1 = false → (decodeHash rb d).2 = d) ∧
    ((decodeSony rb d).1 = false →
        (decodeSony rb d).2 = d ∨ (decodeSony rb d).2 = { d with bits := 0 }) ∧
    ((decodeSanyo rb d).1 = false →
        (decodeSanyo rb d).2 = d ∨ (decodeSanyo rb d).2 = { d with bits := 0 }) ∧
    ((decodeMitsubishi rb d).1 = false →
        (decodeMitsubishi rb d).2 = d ∨ (decodeMitsubishi rb d).2 = { d with bits := 0 }) :=
  ⟨applyD_false d (decodeNECM rb), applyD_false d (decodeRC5M rb),
   applyD_false d (decodeRC6M rb), applyD_false d (decodePanasonicM rb),
   applyD_false d (decodeLGM rb), applyD_false d (decodeJVCM rb),
   applyD_false d (decodeSAMSUNGM rb), applyD_false d (decodeHashM rb),
   applyM3_false d (decodeSonyM rb), applyM3_false d (decodeSanyoM rb),
   applyM3_false d (decodeMitsubishiM rb)⟩

/-- Witness for the amended C6 at the concrete buffer of the
counterexample: the failing decodeSony landed in the zero-bits case. -/
theorem matcher_failure_frame_witness :
    (decodeSony ⟨fun i => if i = 1 then 50 else 500, 26⟩ ⟨1, 2, 32, 4⟩).2 = ⟨1, 2, 32, 4⟩ ∨
    (decodeSony ⟨fun i => if i = 1 then 50 else 500, 26⟩ ⟨1, 2, 32, 4⟩).2 = ⟨1, 2, 0, 4⟩ :=
  (matcher_failure_frame ⟨fun i => if i = 1 then 50 else 500, 26⟩
      ⟨1, 2, 32, 4⟩).2.2.2.2.2.2.2.2.1 (by decide)

/-- C7 counterexample: on a concrete 5-entry Ready buffer that no matcher
accepts, decode itself resets the capture state to idle and the entry
count to 0, refuting the claim that decode never changes them and that a
separate reset by the caller is required. -/
theorem decode_resets_on_failure :
    (decode ⟨.stop, fun _ => 0, 5, 0, 0, 0, 0⟩).1 = false ∧
    (decode ⟨.stop, fun _ => 0, 5, 0, 0, 0, 0⟩).2.rcvstate = RState.idle ∧
    (decode ⟨.stop, fun _ => 0, 5, 0, 0, 0, 0⟩).2.rawlen = 0 := by
  refine ⟨by decide, by decide, by decide⟩

/-- C7 amended: when no frame is ready decode changes nothing at all; when
decode succeeds it leaves the capture state, the entry count and the
buffer contents unchanged (the caller must still reset to resume); but
when the whole matcher chain fails on a Ready buffer, decode resumes
capture itself, zeroing the entry count and returning the state machine
to idle. -/
theorem decode_capture_frame (s : LRState) :
    ((decode s).1 = true →
      (decode s).2.rcvstate = s.rcvstate ∧ (decode s).2.rawlen = s.rawlen ∧
      (decode s).2.rawbuf = s.rawbuf) ∧
    (s.rcvstate ≠ RState.stop → decode s = (false, s)) ∧
    (s.rcvstate = RState.stop → (decode s).1 = false →
      (decode s).2.rcvstate = RState.idle ∧ (decode s).2.rawlen = 0) := by
  unfold decode
  by_cases hst : s.rcvstate = RState.stop
  · rcases h : runChain (rbOf s) (decOf s) with ⟨b, d⟩
    cases b <;> simp [hst, h, withDec]
  · simp [hst]

/-- Witness for the amended C7 at a concrete idle state. -/
theorem decode_capture_frame_witness :
    decode ⟨RState.idle, fun _ => 0, 0, 0, 0, 0, 0⟩ =
      (false, ⟨RState.idle, fun _ => 0, 0, 0, 0, 0, 0⟩) :=
  (decode_capture_frame ⟨RState.idle, fun _ => 0, 0, 0, 0, 0, 0⟩).2.1 (by decide)

/-- A stale raw array holding a full canonical Panasonic frame: entry 1 a
72-tick header mark, entry 2 a 37-tick header space, then 12-tick bit
marks at odd indices and 6-tick zero spaces at even indices. -/
def panaStale : Nat → Nat :=
  fun i => if i = 0 then 100 else if i = 1 then 72 else if i = 2 then 37
           else if i % 2 = 1 then 12 else 6

/-- C9 counterexample: decodePanasonic succeeds on a Ready buffer whose
valid entry count is 5, far below 3 + 2 * PANASONIC_BITS = 131, because
the source never checks the entry count and reads the raw array beyond
it; this refutes the claim that every shorter Ready buffer fails. -/
theorem panasonic_accepts_short_buffer :
    (decodePanasonic ⟨panaStale, 5⟩ ⟨0, 0, 0, 0⟩).1 = true ∧
    5 < 3 + 2 * PANASONIC_BITS := by
  refine ⟨by decide, by decide⟩

/-- C9 amended: the Panasonic matcher never consults the entry count; its
verdict depends only on the raw array contents, so it succeeds exactly
when entries 1 through 2 + 2 * PANASONIC_BITS match the header and bit
pattern, regardless of how many entries are valid, and a shorter Ready
buffer can succeed on stale array contents. -/
theorem panasonic_ignores_rawlen (f : Nat → Nat) (n m : Nat) (d : DecSt) :
    decodePanasonic ⟨f, n⟩ d = decodePanasonic ⟨f, m⟩ d := rfl

/-- The Sony matcher rejects any buffer shorter than its length guard
without writing anything. -/
theorem decodeSonyM_short {rb : RawBuf} (h : rb.len < 2 * SONY_BITS + 2) :
    decodeSonyM rb = .failK := by
  simp [decodeSonyM, h]

/-- The Sanyo matcher rejects any buffer shorter than its length guard. -/
theorem decodeSanyoM_short {rb : RawBuf} (h : rb.len < 2 * SANYO_BITS + 2) :
    decodeSanyoM rb = .failK := by
  simp [decodeSanyoM, h]

/-- The Mitsubishi matcher rejects any buffer shorter than its length
guard. -/
theorem decodeMitsubishiM_short {rb : RawBuf} (h : rb.len < 2 * MITSUBISHI_BITS + 2) :
    decodeMitsubishiM rb = .failK := by
  simp [decodeMitsubishiM, h]

/-- The RC5 matcher rejects any buffer shorter than its length guard. -/
theorem decodeRC5M_short {rb : RawBuf} (h : rb.len < MIN_RC5_SAMPLES + 2) :
    decodeRC5M rb = none := by
  simp [decodeRC5M, h]

/-- The LG matcher rejects any buffer shorter than its length guard,
whether or not the header mark matches. -/
theorem decodeLGM_short {rb : RawBuf} (h : rb.len < 2 * LG_BITS + 1) :
    decodeLGM rb = none := by
  simp [decodeLGM, h]

/-- The JVC matcher rejects any buffer with fewer than 6 entries: such a
buffer is not the 34-entry repeat shape and fails the length guard. -/
theorem decodeJVCM_short {rb : RawBuf} (h : rb.len < 6) :
    decodeJVCM rb = none := by
  have h33 : ¬ rb.len - 1 = 33 := by omega
  have hlen : rb.len < 2 * JVC_BITS + 1 := by
    simp only [JVC_BITS]; omega
  simp [decodeJVCM, h33, hlen]

/-- The hash fallback rejects any buffer with fewer than 6 entries. -/
theorem decodeHashM_short {rb : RawBuf} (h : rb.len < 6) :
    decodeHashM rb = none := by
  simp [decodeHashM, h]

/-- C8 amended: the hash fallback refuses any Ready buffer with fewer than
6 entries, and the Sony, Sanyo, Mitsubishi, RC5, LG and JVC matchers are
forced to fail by their length guards; hence whenever the remaining
matchers (NEC, RC6, Panasonic and SAMSUNG, whose repeat or stale-read
paths can still accept such short frames) also fail, decode reports total
failure, produces no decoded code, and resumes capture. -/
theorem short_buffer_total_failure (s : LRState)
    (hst : s.rcvstate = RState.stop) (h6 : s.rawlen < 6)
    (hNEC : decodeNECM (rbOf s) = none)
    (hRC6 : decodeRC6M (rbOf s) = none)
    (hPana : decodePanasonicM (rbOf s) = none)
    (hSam : decodeSAMSUNGM (rbOf s) = none) :
    decode s = (false, { s with rcvstate := RState.idle, rawlen := 0 }) := by
  have hlen : (rbOf s).len = s.rawlen := rfl
  have hSony : decodeSonyM (rbOf s) = .failK := decodeSonyM_short (by rw [hlen]; simp only [SONY_BITS]; omega)
  have hSanyo : decodeSanyoM (rbOf s) = .failK := decodeSanyoM_short (by rw [hlen]; simp only [SANYO_BITS]; omega)
  have hMitsu : decodeMitsubishiM (rbOf s) = .failK := decodeMitsubishiM_short (by rw [hlen]; simp only [MITSUBISHI_BITS]; omega)
  have hRC5 : decodeRC5M (rbOf s) = none := decodeRC5M_short (by rw [hlen]; simp only [MIN_RC5_SAMPLES]; omega)
  have hLG : decodeLGM (rbOf s) = none := decodeLGM_short (by rw [hlen]; simp only [LG_BITS]; omega)
  have hJVC : decodeJVCM (rbOf s) = none := decodeJVCM_short (by rw [hlen]; exact h6)
  have hHash : decodeHashM (rbOf s) = none := decodeHashM_short (by rw [hlen]; exact h6)
  simp only [decode, hst, if_pos, runChain, decodeNEC, decodeSony, decodeSanyo,
    decodeMitsubishi, decodeRC5, decodeRC6, decodePanasonic, decodeLG, decodeJVC,
    decodeSAMSUNG, decodeHash, hNEC, hSony, hSanyo, hMitsu, hRC5, hRC6, hPana,
    hLG, hJVC, hSam, hHash, applyD, applyM3]
  rfl

/-- Witness for the amended C8 at a concrete 5-entry buffer of ones. -/
theorem short_buffer_total_failure_witness :
    decode ⟨RState.stop, fun _ => 1, 5, 0, 0, 0, 0⟩ =
      (false, ⟨RState.idle, fun _ => 1, 0, 0, 0, 0, 0⟩) :=
  short_buffer_total_failure ⟨RState.stop, fun _ => 1, 5, 0, 0, 0, 0⟩
    (by decide) (by decide) (by decide) (by decide) (by decide) (by decide)

/-- C8 counterexample: a Ready buffer of only 4 entries shaped like the
NEC repeat frame decodes successfully, with the NEC tag and the repeat
sentinel, refuting the claim that every Ready buffer with fewer than 6
entries yields total decode failure with no decoded code. -/
theorem short_repeat_frame_decodes :
    (decode ⟨.stop, fun i => if i = 0 then 100 else if i = 1 then 182 else if i = 2 then 45 else 13,
        4, 0, 0, 0, 0⟩).1 = true ∧
    (4 : Nat) < 6 ∧
    (decode ⟨.stop, fun i => if i = 0 then 100 else if i = 1 then 182 else if i = 2 then 45 else 13,
        4, 0, 0, 0, 0⟩).2.value = REPEAT ∧
    (decode ⟨.stop, fun i => if i = 0 then 100 else if i = 1 then 182 else if i = 2 then 45 else 13,
        4, 0, 0, 0, 0⟩).2.decode_type = NEC := by
  refine ⟨by decide, by decide, by decide, by decide⟩

/-- The canonical buffer holds a 13-tick bit mark at each mark slot of the
payload. -/
theorem necCanon_mark (bs : List Bool) (k : Nat) (hk : k < bs.length) :
    necCanon bs (3 + 2 * k) = 13 := by
  unfold necCanon
  rw [if_neg (by omega), if_neg (by omega), if_neg (by omega),
      if_pos (by omega), if_pos (by omega)]

/-- The canonical buffer holds the 32-tick one space or the 9-tick zero
space at each space slot of the payload, as given by the bit pattern. -/
theorem necCanon_space (bs : List Bool) (k : Nat) (hk : k < bs.length) :
    necCanon bs (3 + 2 * k + 1) = (if bs.getD k false then 32 else 9) := by
  unfold necCanon
  rw [if_neg (by omega), if_neg (by omega), if_neg (by omega),
      if_pos (by omega), if_neg (by omega)]
  have h2 : (3 + 2 * k + 1 - 3) / 2 = k := by omega
  rw [h2]

/-- On a buffer whose payload region holds the canonical NEC pulse shapes
for a bit pattern, the space-coded bit loop accepts every bit and
accumulates the pattern most-significant-bit-first. -/
theorem spaceLoop_canon (bs : List Bool) :
    ∀ (f : Nat → Nat) (off data : Nat),
      (∀ k, k < bs.length →
        f (off + 2 * k) = 13 ∧ f (off + 2 * k + 1) = (if bs.getD k false then 32 else 9)) →
      spaceLoop f NEC_BIT_MARK NEC_ONE_SPACE NEC_ZERO_SPACE bs.length off data =
        some (bs.foldl (fun d b => 2 * d + (bif b then 1 else 0)) data) := by
  induction bs with
  | nil => intro f off data _; rfl
  | cons b tl ih =>
    intro f off data h
    have h0 := h 0 (by simp)
    have hoff : f off = 13 := by simpa using h0.1
    have hoff1 : f (off + 1) = (if b then 32 else 9) := by simpa using h0.2
    have hrest : ∀ k, k < tl.length →
        f (off + 2 + 2 * k) = 13 ∧
        f (off + 2 + 2 * k + 1) = (if tl.getD k false then 32 else 9) := by
      intro k hk
      have h1 := h (k + 1) (by simp; omega)
      have e : off + 2 * (k + 1) = off + 2 + 2 * k := by ring
      rw [e] at h1
      simpa using h1
    cases b with
    | true =>
      simp only [if_true] at hoff1
      show spaceLoop f NEC_BIT_MARK NEC_ONE_SPACE NEC_ZERO_SPACE (tl.length + 1) off data = _
      rw [spaceLoop, hoff, hoff1]
      rw [if_pos (by decide), if_pos (by decide)]
      rw [ih f (off + 2) (2 * data + 1) hrest]
      simp
    | false =>
      simp only [if_false] at hoff1
      show spaceLoop f NEC_BIT_MARK NEC_ONE_SPACE NEC_ZERO_SPACE (tl.length + 1) off data = _
      rw [spaceLoop, hoff, hoff1]
      rw [if_pos (by decide), if_neg (by decide), if_pos (by decide)]
      rw [ih f (off + 2) (2 * data) hrest]
      simp

/-- The NEC matcher accepts the canonical Protocol-A buffer for any 32-bit
pattern, producing the NEC tag, the msb-first value and 32 bits. -/
theorem decodeNECM_canon (bs : List Bool) (h32 : bs.length = 32) :
    decodeNECM ⟨necCanon bs, 68⟩ = some ⟨NEC, msbValue bs, 32, none⟩ := by
  have h1 : necCanon bs 1 = 182 := by simp [necCanon]
  have h2 : necCanon bs 2 = 88 := by simp [necCanon]
  have hloop := spaceLoop_canon bs (necCanon bs) 3 0
    (fun k hk => ⟨necCanon_mark bs k hk, necCanon_space bs k hk⟩)
  rw [h32] at hloop
  unfold decodeNECM
  simp only [h1, h2, NEC_BITS]
  rw [if_pos (by decide)]
  rw [if_neg (fun hh => absurd hh.1 (by decide))]
  rw [if_neg (by decide)]
  rw [if_pos (by decide)]
  rw [hloop]
  rfl

/-- C1: decoding a Ready buffer constructed to the exact canonical
Protocol-A shape encoding any 32-bit pattern returns protocol tag NEC,
bit count 32, and the value obtained by accumulating the pattern
most-significant-bit-first. -/
theorem nec_canonical_frame_decodes (bs : List Bool) (s : LRState)
    (h32 : bs.length = 32) (hst : s.rcvstate = RState.stop)
    (hbuf : s.rawbuf = necCanon bs) (hlen : s.rawlen = 68) :
    decode s = (true, { s with decode_type := NEC, value := msbValue bs, bits := 32 }) := by
  have hview : rbOf s = ⟨necCanon bs, 68⟩ := by
    simp [rbOf, hbuf, hlen]
  have hM : decodeNECM (rbOf s) = some ⟨NEC, msbValue bs, 32, none⟩ := by
    rw [hview]; exact decodeNECM_canon bs h32
  simp only [decode, hst, if_pos, runChain, decodeNEC, hM, applyD]
  simp [withDec, decOf, hst]

/-- Witness for C1 at the all-ones pattern. -/
theorem nec_canonical_frame_decodes_witness :
    decode ⟨RState.stop, necCanon (List.replicate 32 true), 68, 0, 0, 0, 0⟩ =
      (true, ⟨RState.stop, necCanon (List.replicate 32 true), 68, NEC,
              msbValue (List.replicate 32 true), 32, 0⟩) :=
  nec_canonical_frame_decodes (List.replicate 32 true)
    ⟨RState.stop, necCanon (List.replicate 32 true), 68, 0, 0, 0, 0⟩
    (by decide) rfl rfl rfl

/-- Every tick step preserves the buffer-count bound. -/
theorem tick_rawlen_le (ir : Bool) (s : ISRState) (h : s.rawlen ≤ RAWBUF) :
    (tick ir s).rawlen ≤ RAWBUF := by
  simp only [tick]
  by_cases h100 : RAWBUF ≤ s.rawlen
  · simp only [if_pos h100]
    exact h
  · simp only [if_neg h100]
    have hlt : s.rawlen < RAWBUF := Nat.lt_of_not_le h100
    cases s.rcvstate <;> dsimp only <;> (try split_ifs) <;> simp_all <;> omega

/-- A tick step never writes the buffer at or beyond the capacity, as
long as the count respects the bound. -/
theorem tick_no_high_writes (ir : Bool) (s : ISRState) (j : Nat)
    (hj : RAWBUF ≤ j) :
    (tick ir s).rawbuf j = s.rawbuf j := by
  simp only [tick]
  by_cases h100 : RAWBUF ≤ s.rawlen
  · simp only [if_pos h100]
  · simp only [if_neg h100]
    have hlt : s.rawlen < RAWBUF := Nat.lt_of_not_le h100
    cases s.rcvstate <;> dsimp only <;> split_ifs <;>
      first
      | rfl
      | (show upd _ _ _ j = _; simp only [upd]; rw [if_neg (by omega)])

/-- A tick step that begins with the buffer count at capacity forces the
state machine to stop without writing the buffer or the count. -/
theorem tick_full_stops (ir : Bool) (s : ISRState) (h : s.rawlen = RAWBUF) :
    (tick ir s).rcvstate = RState.stop ∧ (tick ir s).rawlen = RAWBUF ∧
    ∀ j, (tick ir s).rawbuf j = s.rawbuf j := by
  have h100 : RAWBUF ≤ s.rawlen := le_of_eq h.symm
  refine ⟨?_, ?_, fun j => ?_⟩ <;> simp [tick, if_pos h100, h]

/-- C3: from the initial idle state, the buffer entry count never exceeds
the capacity RAWBUF = 100 in any reachable sampler state; a tick step
beginning with the count at capacity moves the Capture State to Ready
(stop) without touching the buffer or the count, so an input that never
yields a trailing gap still ends in Ready; and no tick step from a
reachable state ever writes the buffer at an index at or beyond the
capacity. -/
theorem sampler_never_overflows :
    (∀ s, Reachable s → s.rawlen ≤ RAWBUF) ∧
    (∀ ir s, s.rawlen = RAWBUF →
      (tick ir s).rcvstate = RState.stop ∧ (tick ir s).rawlen = RAWBUF ∧
      ∀ j, (tick ir s).rawbuf j = s.rawbuf j) ∧
    (∀ ir s j, Reachable s → RAWBUF ≤ j → (tick ir s).rawbuf j = s.rawbuf j) := by
  have hinv : ∀ s, Reachable s → s.rawlen ≤ RAWBUF := by
    intro s hs
    induction hs with
    | init => exact Nat.zero_le _
    | step ir hs ih => exact tick_rawlen_le ir _ ih
  exact ⟨hinv, fun ir s h => tick_full_stops ir s h,
    fun ir s j _ hj => tick_no_high_writes ir s j hj⟩

/-- Witness for C3 at the initial state and at a concrete full-buffer
state. -/
theorem sampler_never_overflows_witness :
    initISR.rawlen ≤ RAWBUF ∧
    (tick true ⟨RState.mark, 0, fun _ => 0, 100⟩).rcvstate = RState.stop ∧
    (tick true ⟨RState.mark, 0, fun _ => 0, 100⟩).rawlen = RAWBUF :=
  ⟨sampler_never_overflows.1 initISR Reachable.init,
   (sampler_never_overflows.2.1 true ⟨RState.mark, 0, fun _ => 0, 100⟩ rfl).1,
   (sampler_never_overflows.2.1 true ⟨RState.mark, 0, fun _ => 0, 100⟩ rfl).2.1⟩

/-- The hash loop equals the FNV fold over the extracted list of
comparison classes. -/
theorem hashLoop_eq_fold (f : Nat → Nat) :
    ∀ (n i h : Nat),
      hashLoop f n i h =
        hashFold ((List.range n).map fun k => compare (f (i + k)) (f (i + k + 2))) h := by
  intro n
  induction n with
  | zero => intro i h; rfl
  | succ m ih =>
    intro i h
    rw [hashLoop, ih (i + 1), List.range_succ_eq_map]
    simp only [List.map_cons, List.map_map, hashFold, List.foldl_cons]
    have hfun : ((List.range m).map ((fun k => compare (f (i + k)) (f (i + k + 2))) ∘ Nat.succ))
        = (List.range m).map fun k => compare (f (i + 1 + k)) (f (i + 1 + k + 2)) := by
      apply List.map_congr_left
      intro k _
      have e1 : i + (k + 1) = i + 1 + k := by omega
      simp only [Function.comp, Nat.succ_eq_add_one, e1]
    rw [hfun]
    have e0 : i + 0 = i := by omega
    simp only [e0, stepFNV]

/-- The hash loop reads the buffer only at the indices it compares. -/
theorem hashLoop_congr (f g : Nat → Nat) :
    ∀ (n i h : Nat), (∀ j, i ≤ j → j < i + n + 2 → f j = g j) →
      hashLoop f n i h = hashLoop g n i h := by
  intro n
  induction n with
  | zero => intro i h _; rfl
  | succ m ih =>
    intro i h hj
    rw [hashLoop, hashLoop, hj i (le_refl i) (by omega), hj (i + 2) (by omega) (by omega)]
    exact ih (i + 1) _ (fun j h1 h2 => hj j (by omega) (by omega))

/-- On a Ready buffer with at least 6 entries the hash fallback succeeds
with the UNKNOWN tag, 32 bits, and the FNV fold of the comparison
classes, leaving the Panasonic address alone. -/
theorem decodeHash_formula (rb : RawBuf) (d : DecSt) (h6 : 6 ≤ rb.len) :
    decodeHash rb d =
      (true, ⟨UNKNOWN, hashFold (compareClasses rb.buf rb.len) FNV_BASIS_32, 32,
              d.panasonicAddress⟩) := by
  have hn : ¬ rb.len < 6 := Nat.not_lt.mpr h6
  simp only [decodeHash, decodeHashM, hn, if_neg, if_false, applyD, compareClasses,
    Option.getD, hashLoop_eq_fold]

/-- The matcher chain falls through to the hash fallback whenever every
protocol matcher fails, preserving the Panasonic address through the
failing attempts. -/
theorem runChain_hash (rb : RawBuf) (d : DecSt)
    (hNEC : decodeNECM rb = none)
    (hSony : decodeSonyM rb = MRes3.failK ∨ decodeSonyM rb = MRes3.failZ)
    (hSanyo : decodeSanyoM rb = MRes3.failK ∨ decodeSanyoM rb = MRes3.failZ)
    (hMitsu : decodeMitsubishiM rb = MRes3.failK ∨ decodeMitsubishiM rb = MRes3.failZ)
    (hRC5 : decodeRC5M rb = none) (hRC6 : decodeRC6M rb = none)
    (hPana : decodePanasonicM rb = none) (hLG : decodeLGM rb = none)
    (hJVC : decodeJVCM rb = none) (hSam : decodeSAMSUNGM rb = none)
    (h6 : 6 ≤ rb.len) :
    runChain rb d =
      (true, ⟨UNKNOWN, hashFold (compareClasses rb.buf rb.len) FNV_BASIS_32, 32,
              d.panasonicAddress⟩) := by
  have hh : ∀ dd : DecSt, decodeHash rb dd =
      (true, ⟨UNKNOWN, hashFold (compareClasses rb.buf rb.len) FNV_BASIS_32, 32,
              dd.panasonicAddress⟩) := fun dd => decodeHash_formula rb dd h6
  rcases hSony with hS | hS <;> rcases hSanyo with hSa | hSa <;> rcases hMitsu with hM | hM <;>
    simp [runChain, decodeNEC, decodeSony, decodeSanyo, decodeMitsubishi, decodeRC5,
      decodeRC6, decodePanasonic, decodeLG, decodeJVC, decodeSAMSUNG,
      hNEC, hS, hSa, hM, hRC5, hRC6, hPana, hLG, hJVC, hSam, applyD, applyM3, hh]

/-- An exclusive-or of two values below 2 to the 32 stays below it. -/
theorem xor_lt_32 {a b : Nat} (ha : a < 4294967296) (hb : b < 4294967296) :
    a ^^^ b < 4294967296 := by
  have h32 : (4294967296 : Nat) = 2 ^ 32 := by norm_num
  rw [h32] at ha hb ⊢
  exact Nat.bitwise_lt ha hb

/-- One FNV step keeps the accumulator below 2 to the 32 whenever the
folded class is. -/
theorem stepFNV_lt (h v : Nat) (hv : v < 4294967296) : stepFNV h v < 4294967296 := by
  have h1 : h * FNV_PRIME_32 % 4294967296 < 4294967296 := Nat.mod_lt _ (by norm_num)
  exact xor_lt_32 h1 hv

/-- One FNV step is injective on accumulators below 2 to the 32: the FNV
prime is odd, hence invertible modulo 2 to the 32. -/
theorem stepFNV_inj {h1 h2 : Nat} (v : Nat) (hb1 : h1 < 4294967296) (hb2 : h2 < 4294967296)
    (he : stepFNV h1 v = stepFNV h2 v) : h1 = h2 := by
  unfold stepFNV at he
  have hx : h1 * FNV_PRIME_32 % 4294967296 = h2 * FNV_PRIME_32 % 4294967296 :=
    Nat.xor_left_injective he
  have hmod : h1 ≡ h2 [MOD 4294967296] :=
    Nat.ModEq.cancel_right_of_coprime (by decide) hx
  calc h1 = h1 % 4294967296 := (Nat.mod_eq_of_lt hb1).symm
    _ = h2 % 4294967296 := hmod
    _ = h2 := Nat.mod_eq_of_lt hb2

/-- The FNV fold is injective in its seed when every folded class is below
2 to the 32. -/
theorem hashFold_inj (suf : List Nat) (hs : ∀ u ∈ suf, u < 4294967296) :
    ∀ h1 h2, h1 < 4294967296 → h2 < 4294967296 →
      hashFold suf h1 = hashFold suf h2 → h1 = h2 := by
  induction suf with
  | nil => intro h1 h2 _ _ he; exact he
  | cons u tl ih =>
    intro h1 h2 hb1 hb2 he
    have hu : u < 4294967296 := hs u (List.mem_cons_self u tl)
    have htl : ∀ x ∈ tl, x < 4294967296 := fun x hx => hs x (List.mem_cons_of_mem _ hx)
    exact stepFNV_inj u hb1 hb2
      (ih htl (stepFNV h1 u) (stepFNV h2 u) (stepFNV_lt h1 u hu) (stepFNV_lt h2 u hu) he)

/-- Flipping a single comparison class changes the FNV fold. -/
theorem hashFold_flip (pre suf : List Nat) (v w : Nat) (hv : v < 4) (hw : w < 4)
    (hvw : v ≠ w) (hs : ∀ u ∈ suf, u < 4294967296) :
    hashFold (pre ++ v :: suf) FNV_BASIS_32 ≠ hashFold (pre ++ w :: suf) FNV_BASIS_32 := by
  intro he
  have hH : ∀ u : Nat, hashFold (pre ++ u :: suf) FNV_BASIS_32 =
      hashFold suf (stepFNV (hashFold pre FNV_BASIS_32) u) := by
    intro u
    simp [hashFold, List.foldl_append]
  rw [hH v, hH w] at he
  have hstep : stepFNV (hashFold pre FNV_BASIS_32) v = stepFNV (hashFold pre FNV_BASIS_32) w :=
    hashFold_inj suf hs _ _ (stepFNV_lt _ v (by omega)) (stepFNV_lt _ w (by omega)) he
  exact hvw (Nat.xor_right_injective hstep)

/-- C4: on a Ready buffer with at least 6 entries on which every protocol
matcher fails, decode succeeds with the UNKNOWN tag, 32 bits, and the FNV
fold (seeded with 2166136261, multiplying by 16777619 and xor-ing each
stride-2 comparison class for positions from 1 while position plus two is
in range); two buffers with identical contents hash identically, and
flipping any single comparison class changes the fold. -/
theorem hash_fallback_spec :
    (∀ s : LRState, s.rcvstate = RState.stop → 6 ≤ s.rawlen →
      decodeNECM (rbOf s) = none →
      (decodeSonyM (rbOf s) = MRes3.failK ∨ decodeSonyM (rbOf s) = MRes3.failZ) →
      (decodeSanyoM (rbOf s) = MRes3.failK ∨ decodeSanyoM (rbOf s) = MRes3.failZ) →
      (decodeMitsubishiM (rbOf s) = MRes3.failK ∨ decodeMitsubishiM (rbOf s) = MRes3.failZ) →
      decodeRC5M (rbOf s) = none → decodeRC6M (rbOf s) = none →
      decodePanasonicM (rbOf s) = none → decodeLGM (rbOf s) = none →
      decodeJVCM (rbOf s) = none → decodeSAMSUNGM (rbOf s) = none →
      (decode s).1 = true ∧
      (decode s).2.decode_type = UNKNOWN ∧ (decode s).2.bits = 32 ∧
      (decode s).2.value = hashFold (compareClasses s.rawbuf s.rawlen) FNV_BASIS_32) ∧
    (∀ (f g : Nat → Nat) (n : Nat) (d : DecSt), (∀ i, i < n → f i = g i) →
      decodeHash ⟨f, n⟩ d = decodeHash ⟨g, n⟩ d) ∧
    (∀ (pre suf : List Nat) (v w : Nat), v < 4 → w < 4 → v ≠ w →
      (∀ u ∈ suf, u < 4294967296) →
      hashFold (pre ++ v :: suf) FNV_BASIS_32 ≠ hashFold (pre ++ w :: suf) FNV_BASIS_32) := by
  refine ⟨?_, ?_, hashFold_flip⟩
  · intro s hst h6 hNEC hSony hSanyo hMitsu hRC5 hRC6 hPana hLG hJVC hSam
    have hch := runChain_hash (rbOf s) (decOf s) hNEC hSony hSanyo hMitsu hRC5 hRC6
      hPana hLG hJVC hSam h6
    simp [decode, hst, hch, withDec]
    rfl
  · intro f g n d h
    by_cases h6 : n < 6
    · simp [decodeHash, decodeHashM, h6]
    · have hc : hashLoop f (n - 3) 1 FNV_BASIS_32 = hashLoop g (n - 3) 1 FNV_BASIS_32 :=
        hashLoop_congr f g (n - 3) 1 FNV_BASIS_32
          (fun j h1 h2 => h j (by omega))
      simp [decodeHash, decodeHashM, h6, hc]

/-- Witness for C4 at a concrete 6-entry buffer of zero durations on which
every protocol matcher fails. -/
theorem hash_fallback_spec_witness :
    (decode ⟨RState.stop, fun _ => 0, 6, 0, 0, 0, 0⟩).1 = true ∧
    (decode ⟨RState.stop, fun _ => 0, 6, 0, 0, 0, 0⟩).2.decode_type = UNKNOWN ∧
    (decode ⟨RState.stop, fun _ => 0, 6, 0, 0, 0, 0⟩).2.bits = 32 ∧
    (decode ⟨RState.stop, fun _ => 0, 6, 0, 0, 0, 0⟩).2.value =
      hashFold (compareClasses (fun _ => 0) 6) FNV_BASIS_32 :=
  hash_fallback_spec.1 ⟨RState.stop, fun _ => 0, 6, 0, 0, 0, 0⟩
    (by decide) (by decide) (by decide) (Or.inl (by decide)) (Or.inl (by decide))
    (Or.inl (by decide)) (by decide) (by decide) (by decide) (by decide)
    (by decide) (by decide)

end Theorems

end LRremote
